import Mathlib

/-!
Verification of the `check-it` task-tracking backend.

The program is a CRUD HTTP API over a single SQLite table
`tasks(id INTEGER PRIMARY KEY AUTOINCREMENT, name TEXT NOT NULL,
desc TEXT NOT NULL, status BOOLEAN NOT NULL DEFAULT 0)`.

Shallow embedding:
- the database is a `DB`: the list of rows of the `tasks` table together
  with the AUTOINCREMENT sequence counter (SQLite keeps, for a table
  declared with AUTOINCREMENT, the largest rowid ever assigned in
  `sqlite_sequence`; a fresh insert receives that value plus one and the
  counter is never decreased, so deleted ids are never handed out again);
- each operation of `core.py` / `backend/db.py` becomes a pure function
  from `DB` to its Python return value paired with the resulting `DB`
  (reads return just the value);
- the FastAPI endpoints of `backend/main.py` become functions returning an
  `ApiResponse`, recording the HTTP error status and detail message that
  `HTTPException(status_code=404, detail="Task not found")` produces.
-/

namespace CheckIt

/-- The `Task` pydantic model of `backend/models.py`: id, name, desc, status. -/
structure Task where
  id : Nat
  name : String
  desc : String
  status : Bool
deriving DecidableEq, Repr

/-- The persistent state: the rows of the `tasks` table in storage order,
plus the AUTOINCREMENT sequence counter (largest id ever assigned). -/
structure DB where
  rows : List Task
  seq : Nat
deriving DecidableEq, Repr

/-- A freshly created, never-populated database: empty table, counter 0. -/
def DB.empty : DB := ⟨[], 0⟩

/-- Embeds `core.create_task`: INSERT the row; `cursor.lastrowid` is the new
AUTOINCREMENT id (one more than the largest id ever assigned); the function
returns `Task(id=task_id, name=name, desc=desc, status=status)`. -/
def create_task (db : DB) (name desc : String) (status : Bool) : Task × DB :=
  let task_id := db.seq + 1
  let t : Task := ⟨task_id, name, desc, status⟩
  (t, ⟨db.rows ++ [t], task_id⟩)

/-- Embeds `core.get_all_tasks`: SELECT * FROM tasks, materialized in storage order. -/
def get_all_tasks (db : DB) : List Task :=
  db.rows

/-- Embeds `core.get_task_by_id`: SELECT * FROM tasks WHERE id = ?, `fetchone`
gives the first matching row or nothing; returns the Task or None. -/
def get_task_by_id (db : DB) (task_id : Nat) : Option Task :=
  db.rows.find? (fun t => t.id == task_id)

/-- The effect of `UPDATE tasks SET name = ?, desc = ?, status = ? WHERE
id = ?` on one stored row: overwrite the three mutable columns of every row
whose id matches, leaving `id` and all other rows untouched. -/
def sqlUpdateRow (task_id : Nat) (nm ds : String) (st : Bool) (r : Task) : Task :=
  if r.id = task_id then { r with name := nm, desc := ds, status := st } else r

/-- Embeds `core.update_task`: fetch the current Task (None if absent); merge
each optional argument with the stored value (`x if x is not None else
task.x`); run the full-row UPDATE; return the merged Task with the given id. -/
def update_task (db : DB) (task_id : Nat) (name desc : Option String)
    (status : Option Bool) : Option Task × DB :=
  match get_task_by_id db task_id with
  | none => (none, db)
  | some task =>
      let updated_name := name.getD task.name
      let updated_desc := desc.getD task.desc
      let updated_status := status.getD task.status
      (some ⟨task_id, updated_name, updated_desc, updated_status⟩,
       ⟨db.rows.map (sqlUpdateRow task_id updated_name updated_desc updated_status),
        db.seq⟩)

/-- Embeds `core.delete_task`: DELETE FROM tasks WHERE id = ?; `cursor.rowcount`
counts the removed rows; the function returns `rowcount > 0`. -/
def delete_task (db : DB) (task_id : Nat) : Bool × DB :=
  let rowcount := (db.rows.filter (fun t => t.id == task_id)).length
  (decide (0 < rowcount), ⟨db.rows.filter (fun t => t.id != task_id), db.seq⟩)

/-- The three seed rows of `backend/db.py` (`default_tasks`). -/
def default_tasks : List (String × String × Bool) :=
  [("TASK-1", "First task to complete", false),
   ("TASK-2", "Second task to complete", false),
   ("TASK-3", "Third task to complete", false)]

/-- Embeds `init_db` of `backend/db.py`: CREATE TABLE IF NOT EXISTS (state creation is
the `DB.empty` starting point; on an existing table it changes nothing);
then count the rows and, only when the count is zero, insert the three
default tasks in order. -/
def init_db (db : DB) : DB :=
  if db.rows.length = 0 then
    default_tasks.foldl (fun d p => (create_task d p.1 p.2.1 p.2.2).2) db
  else db

/-- The value an endpoint hands back to FastAPI: either a payload, or an
`HTTPException` with a numeric status code and a detail string. -/
inductive ApiResponse (α : Type) where
  | ok : α → ApiResponse α
  | httpError : Nat → String → ApiResponse α
deriving DecidableEq, Repr

/-- Endpoint `POST /tasks` (`create_new_task`): calls `create_task` and returns the
created Task; pydantic `TaskCreate` requires `name`/`desc` to be strings
(any strings — no emptiness check) and defaults `status` to false. -/
def create_new_task (db : DB) (name desc : String) (status : Bool) :
    ApiResponse Task × DB :=
  let r := create_task db name desc status
  (.ok r.1, r.2)

/-- Endpoint `GET /tasks` (`get_tasks`): returns `get_all_tasks`. -/
def get_tasks (db : DB) : ApiResponse (List Task) :=
  .ok (get_all_tasks db)

/-- Endpoint `GET /tasks/\x7btask_id\x7d` (`get_task`): 404 "Task not found" when
`get_task_by_id` returns None, otherwise the Task. -/
def get_task (db : DB) (task_id : Nat) : ApiResponse Task :=
  match get_task_by_id db task_id with
  | none => .httpError 404 "Task not found"
  | some t => .ok t

/-- Endpoint `PUT /tasks/\x7btask_id\x7d` (`update_existing_task`): forwards the three
optional fields of `TaskUpdate` (each defaulting to None) to `update_task`;
404 "Task not found" when that returns None, otherwise the updated Task. -/
def update_existing_task (db : DB) (task_id : Nat) (name desc : Option String)
    (status : Option Bool) : ApiResponse Task × DB :=
  let r := update_task db task_id name desc status
  match r.1 with
  | none => (.httpError 404 "Task not found", r.2)
  | some t => (.ok t, r.2)

/-- Endpoint `DELETE /tasks/\x7btask_id\x7d` (`delete_existing_task`): 404 "Task not
found" when `delete_task` returns false, otherwise a confirmation message. -/
def delete_existing_task (db : DB) (task_id : Nat) : ApiResponse String × DB :=
  let r := delete_task db task_id
  if r.1 then (.ok "Task deleted successfully", r.2)
  else (.httpError 404 "Task not found", r.2)

/-- Database well-formedness: row ids are pairwise distinct, and no stored
id exceeds the AUTOINCREMENT counter.  Holds for `DB.empty` and is
preserved by every operation (proved below). -/
def Inv (db : DB) : Prop :=
  (db.rows.map Task.id).Nodup ∧ ∀ t ∈ db.rows, t.id ≤ db.seq

instance (db : DB) : Decidable (Inv db) := by
  unfold Inv; infer_instance

/-! Helper lemmas about the embedded operations. -/

theorem find?_map_sqlUpdateRow_self (rows : List Task) (i : Nat) (nm ds : String)
    (st : Bool) (t : Task) (h : rows.find? (fun r => r.id == i) = some t) :
    (rows.map (sqlUpdateRow i nm ds st)).find? (fun r => r.id == i) =
      some ⟨t.id, nm, ds, st⟩ := by
  induction rows with
  | nil => simp at h
  | cons a l ih =>
    by_cases ha : a.id = i
    · rw [List.find?_cons_of_pos _ (by simp [ha])] at h
      cases h
      simp only [List.map_cons]
      rw [List.find?_cons_of_pos _ (by simp [sqlUpdateRow, ha])]
      simp [sqlUpdateRow, ha]
    · rw [List.find?_cons_of_neg _ (by simp [ha])] at h
      simp only [List.map_cons]
      rw [List.find?_cons_of_neg _ (by simp [sqlUpdateRow, ha])]
      exact ih h

theorem sqlUpdateRow_id (i : Nat) (nm ds : String) (st : Bool) (r : Task) :
    (sqlUpdateRow i nm ds st r).id = r.id := by
  unfold sqlUpdateRow
  split <;> rfl

theorem find?_map_sqlUpdateRow_other (rows : List Task) (i j : Nat) (nm ds : String)
    (st : Bool) (hne : j ≠ i) :
    (rows.map (sqlUpdateRow i nm ds st)).find? (fun r => r.id == j) =
      rows.find? (fun r => r.id == j) := by
  induction rows with
  | nil => simp
  | cons a l ih =>
    simp only [List.map_cons]
    by_cases ha : a.id = j
    · have hupd : sqlUpdateRow i nm ds st a = a := by
        simp [sqlUpdateRow, ha, hne]
      rw [hupd, List.find?_cons_of_pos _ (by simp [ha]),
        List.find?_cons_of_pos _ (by simp [ha])]
    · rw [List.find?_cons_of_neg _ (by simp [sqlUpdateRow_id, ha]),
        List.find?_cons_of_neg _ (by simp [ha])]
      exact ih

theorem get_task_by_id_some_id (db : DB) (i : Nat) (t : Task)
    (h : get_task_by_id db i = some t) : t.id = i := by
  have := List.find?_some h
  simpa using this

theorem get_task_by_id_some_mem (db : DB) (i : Nat) (t : Task)
    (h : get_task_by_id db i = some t) : t ∈ db.rows :=
  List.mem_of_find?_eq_some h

/-! Preservation of the well-formedness invariant by every operation. -/

theorem Inv_empty : Inv DB.empty := by decide

theorem Inv_create (db : DB) (n d : String) (s : Bool) (h : Inv db) :
    Inv (create_task db n d s).2 := by
  obtain ⟨hnd, hle⟩ := h
  constructor
  · simp only [create_task, List.map_append, List.map_cons, List.map_nil]
    rw [List.nodup_append]
    refine ⟨hnd, List.nodup_singleton _, ?_⟩
    intro x hx hx1
    simp only [List.mem_singleton] at hx1
    obtain ⟨t, ht, rfl⟩ := List.mem_map.mp hx
    have := hle t ht
    omega
  · intro t ht
    simp only [create_task, List.mem_append, List.mem_singleton] at ht
    rcases ht with ht | rfl
    · have := hle t ht
      simp only [create_task]
      omega
    · simp [create_task]

theorem Inv_update (db : DB) (i : Nat) (n d : Option String) (s : Option Bool)
    (h : Inv db) : Inv (update_task db i n d s).2 := by
  obtain ⟨hnd, hle⟩ := h
  unfold update_task
  cases hg : get_task_by_id db i with
  | none => exact ⟨hnd, hle⟩
  | some t =>
    constructor
    · have : Task.id ∘ sqlUpdateRow i (n.getD t.name) (d.getD t.desc) (s.getD t.status) =
          Task.id := by
        funext r
        simp only [Function.comp_apply, sqlUpdateRow]
        split <;> rfl
      simpa [List.map_map, this] using hnd
    · intro r hr
      simp only [List.mem_map] at hr
      obtain ⟨r0, hr0, rfl⟩ := hr
      have := hle r0 hr0
      simp only [sqlUpdateRow]
      split <;> simpa

theorem Inv_delete (db : DB) (i : Nat) (h : Inv db) : Inv (delete_task db i).2 := by
  obtain ⟨hnd, hle⟩ := h
  constructor
  · exact ((List.filter_sublist _).map Task.id).nodup hnd
  · intro t ht
    simp only [delete_task, List.mem_filter] at ht
    exact hle t ht.1

theorem Inv_init (db : DB) (h : Inv db) : Inv (init_db db) := by
  unfold init_db
  split
  · exact Inv_create _ _ _ _ (Inv_create _ _ _ _ (Inv_create _ _ _ _ h))
  · exact h

/-! The claims. -/

/-- C1: `create(n, d, s)` followed by `get` on the returned id yields a Task
equal to `{id, n, d, s}`: the created record round-trips through storage
unchanged. -/
theorem create_get_roundtrip (db : DB) (n d : String) (s : Bool) (h : Inv db) :
    get_task_by_id (create_task db n d s).2 (create_task db n d s).1.id =
      some ⟨(create_task db n d s).1.id, n, d, s⟩ := by
  simp only [create_task, get_task_by_id, List.find?_append]
  have hnone : (db.rows.find? (fun t => t.id == db.seq + 1)) = none := by
    rw [List.find?_eq_none]
    intro t ht
    have := h.2 t ht
    simp only [beq_iff_eq]
    omega
  rw [hnone]
  simp

/-- Witness for C1 at a concrete state. -/
theorem create_get_roundtrip_witness :
    Inv DB.empty ∧
    get_task_by_id (create_task DB.empty "a" "b" true).2
        (create_task DB.empty "a" "b" true).1.id =
      some ⟨(create_task DB.empty "a" "b" true).1.id, "a", "b", true⟩ :=
  ⟨by decide, create_get_roundtrip DB.empty "a" "b" true (by decide)⟩

/-- C2: on first-ever initialization against the empty database, `init_db`
inserts exactly the three seed Tasks TASK-1, TASK-2, TASK-3, all with status
false (and ids 1, 2, 3); against any non-empty table it adds nothing. -/
theorem init_db_seeding :
    (init_db DB.empty).rows =
      [⟨1, "TASK-1", "First task to complete", false⟩,
       ⟨2, "TASK-2", "Second task to complete", false⟩,
       ⟨3, "TASK-3", "Third task to complete", false⟩] ∧
    ∀ db : DB, db.rows ≠ [] → init_db db = db := by
  constructor
  · rfl
  · intro db hne
    unfold init_db
    rw [if_neg]
    simpa using hne

/-- Witness for C2's non-empty branch at a concrete state. -/
theorem init_db_seeding_witness :
    (DB.rows ⟨[⟨1, "a", "b", false⟩], 1⟩ ≠ []) ∧
    init_db ⟨[⟨1, "a", "b", false⟩], 1⟩ = ⟨[⟨1, "a", "b", false⟩], 1⟩ :=
  ⟨by simp, init_db_seeding.2 ⟨[⟨1, "a", "b", false⟩], 1⟩ (by simp)⟩

/-- Shared helper: everything that follows from "no row has the requested
id", at the storage and at the API layer. -/
theorem not_found_aux (db : DB) (i : Nat) (h : ∀ t ∈ db.rows, t.id ≠ i) :
    get_task_by_id db i = none ∧
    (∀ nm ds : Option String, ∀ st : Option Bool,
      update_task db i nm ds st = (none, db)) ∧
    delete_task db i = (false, db) ∧
    get_task db i = .httpError 404 "Task not found" ∧
    (∀ nm ds : Option String, ∀ st : Option Bool,
      (update_existing_task db i nm ds st).1 = .httpError 404 "Task not found") ∧
    (delete_existing_task db i).1 = .httpError 404 "Task not found" := by
  have hget : get_task_by_id db i = none := by
    rw [get_task_by_id, List.find?_eq_none]
    intro t ht
    simpa using h t ht
  have hupd : ∀ nm ds : Option String, ∀ st : Option Bool,
      update_task db i nm ds st = (none, db) := by
    intro nm ds st
    rw [update_task, hget]
  have hfil : db.rows.filter (fun t => t.id == i) = [] := by
    rw [List.filter_eq_nil_iff]
    intro t ht
    simpa using h t ht
  have hkeep : db.rows.filter (fun t => t.id != i) = db.rows := by
    rw [List.filter_eq_self]
    intro t ht
    simpa using h t ht
  have hdel : delete_task db i = (false, db) := by
    simp only [delete_task, hfil, hkeep]
    rfl
  refine ⟨hget, hupd, hdel, ?_, ?_, ?_⟩
  · rw [get_task, hget]
  · intro nm ds st
    rw [update_existing_task, hupd]
  · simp [delete_existing_task, hdel]

/-- C3: when no row has the requested id, the lower layers signal not-found
by an absent-value return (None from get/update, false from delete, with the
state unchanged — they are total, never raising), and each of the three API
endpoints responds 404 with detail "Task not found". -/
theorem not_found_404 (db : DB) (i : Nat) (h : ∀ t ∈ db.rows, t.id ≠ i) :
    get_task_by_id db i = none ∧
    (∀ nm ds : Option String, ∀ st : Option Bool,
      update_task db i nm ds st = (none, db)) ∧
    delete_task db i = (false, db) ∧
    get_task db i = .httpError 404 "Task not found" ∧
    (∀ nm ds : Option String, ∀ st : Option Bool,
      (update_existing_task db i nm ds st).1 = .httpError 404 "Task not found") ∧
    (delete_existing_task db i).1 = .httpError 404 "Task not found" :=
  not_found_aux db i h

/-- Witness for C3 at a concrete state and id. -/
theorem not_found_404_witness :
    (∀ t ∈ DB.rows ⟨[⟨1, "a", "b", false⟩], 1⟩, t.id ≠ 2) ∧
    get_task ⟨[⟨1, "a", "b", false⟩], 1⟩ 2 = .httpError 404 "Task not found" :=
  ⟨by decide, (not_found_404 ⟨[⟨1, "a", "b", false⟩], 1⟩ 2 (by decide)).2.2.2.1⟩

/-- C6: for every state and id, after `delete(id)` a `get(id)` yields
not-found, a second `delete(id)` returns false leaving the state unchanged,
and the API maps both to 404 "Task not found" rather than an error. -/
theorem delete_idempotent_failure (db : DB) (i : Nat) :
    get_task_by_id (delete_task db i).2 i = none ∧
    delete_task (delete_task db i).2 i = (false, (delete_task db i).2) ∧
    get_task (delete_task db i).2 i = .httpError 404 "Task not found" ∧
    (delete_existing_task (delete_task db i).2 i).1 =
      .httpError 404 "Task not found" := by
  have h : ∀ t ∈ (delete_task db i).2.rows, t.id ≠ i := by
    intro t ht
    simp only [delete_task, List.mem_filter] at ht
    simpa using ht.2
  have := not_found_aux (delete_task db i).2 i h
  exact ⟨this.1, this.2.2.1, this.2.2.2.1, this.2.2.2.2.2⟩

theorem map_eq_self_of {α : Type} (l : List α) (f : α → α) (h : ∀ r ∈ l, f r = r) :
    l.map f = l := by
  induction l with
  | nil => rfl
  | cons a l ih =>
    simp only [List.map_cons, h a (by simp)]
    rw [ih (fun r hr => h r (by simp [hr]))]

/-- C4: an update supplying none of the three optional fields returns the
stored Task unchanged and leaves the database state exactly as it was. -/
theorem identity_update (db : DB) (i : Nat) (t : Task) (hInv : Inv db)
    (h : get_task_by_id db i = some t) :
    update_task db i none none none = (some t, db) := by
  have hid : t.id = i := get_task_by_id_some_id db i t h
  have hmem : t ∈ db.rows := get_task_by_id_some_mem db i t h
  unfold update_task
  rw [h]
  simp only [Option.getD_none]
  have hrows : db.rows.map (sqlUpdateRow i t.name t.desc t.status) = db.rows := by
    apply map_eq_self_of
    intro r hr
    unfold sqlUpdateRow
    split
    · have hr_eq : r = t := by
        apply List.inj_on_of_nodup_map hInv.1 hr hmem
        omega
      subst hr_eq
      rfl
    · rfl
  rw [hrows]
  subst hid
  obtain ⟨tid, tn, td, ts⟩ := t
  rfl

/-- Witness for C4 at a concrete state. -/
theorem identity_update_witness :
    Inv ⟨[⟨1, "a", "b", true⟩], 1⟩ ∧
    get_task_by_id ⟨[⟨1, "a", "b", true⟩], 1⟩ 1 = some ⟨1, "a", "b", true⟩ ∧
    update_task ⟨[⟨1, "a", "b", true⟩], 1⟩ 1 none none none =
      (some ⟨1, "a", "b", true⟩, ⟨[⟨1, "a", "b", true⟩], 1⟩) :=
  ⟨by decide, by decide,
   identity_update ⟨[⟨1, "a", "b", true⟩], 1⟩ 1 ⟨1, "a", "b", true⟩
     (by decide) (by decide)⟩

/-- C5: an update supplying only `name = x` returns and stores the row with
its name set to `x` while `id`, `desc` and `status` keep their prior values,
and every other id reads back exactly as before. -/
theorem update_name_only (db : DB) (i : Nat) (t : Task) (x : String)
    (h : get_task_by_id db i = some t) :
    (update_task db i (some x) none none).1 = some ⟨t.id, x, t.desc, t.status⟩ ∧
    get_task_by_id (update_task db i (some x) none none).2 i =
      some ⟨t.id, x, t.desc, t.status⟩ ∧
    ∀ j, j ≠ i → get_task_by_id (update_task db i (some x) none none).2 j =
      get_task_by_id db j := by
  have hid : t.id = i := get_task_by_id_some_id db i t h
  have hfind : db.rows.find? (fun r => r.id == i) = some t := h
  unfold update_task
  rw [h]
  simp only [Option.getD_none, Option.getD_some]
  refine ⟨by rw [hid], ?_, ?_⟩
  · show (db.rows.map (sqlUpdateRow i x t.desc t.status)).find? (fun r => r.id == i) = _
    rw [find?_map_sqlUpdateRow_self db.rows i x t.desc t.status t hfind]
  · intro j hj
    show (db.rows.map (sqlUpdateRow i x t.desc t.status)).find? (fun r => r.id == j) = _
    rw [find?_map_sqlUpdateRow_other db.rows i j x t.desc t.status hj]
    rfl

/-- Witness for C5 at a concrete state. -/
theorem update_name_only_witness :
    get_task_by_id ⟨[⟨1, "a", "b", true⟩, ⟨2, "c", "d", false⟩], 2⟩ 1 =
      some ⟨1, "a", "b", true⟩ ∧
    get_task_by_id
        (update_task ⟨[⟨1, "a", "b", true⟩, ⟨2, "c", "d", false⟩], 2⟩ 1
          (some "X") none none).2 1 = some ⟨1, "X", "b", true⟩ :=
  ⟨by decide,
   (update_name_only ⟨[⟨1, "a", "b", true⟩, ⟨2, "c", "d", false⟩], 2⟩ 1
     ⟨1, "a", "b", true⟩ "X" (by decide)).2.1⟩

/-- C10: in `update_task` a `none` argument is exactly "keep the stored
value" (clients sending null and clients omitting the field both arrive as
None), so a merge can never write a null field; and an explicitly supplied
status `false` is applied — the code tests `is not None`, not truthiness —
so a completed task can be marked incomplete while name and desc keep their
prior values. -/
theorem none_keeps_false_applied (db : DB) (i : Nat) (t : Task)
    (h : get_task_by_id db i = some t) :
    (update_task db i none none none).1 = some t ∧
    (update_task db i none none (some false)).1 =
      some ⟨t.id, t.name, t.desc, false⟩ ∧
    get_task_by_id (update_task db i none none (some false)).2 i =
      some ⟨t.id, t.name, t.desc, false⟩ := by
  have hid : t.id = i := get_task_by_id_some_id db i t h
  have hfind : db.rows.find? (fun r => r.id == i) = some t := h
  unfold update_task
  rw [h]
  simp only [Option.getD_none, Option.getD_some]
  refine ⟨?_, by rw [hid], ?_⟩
  · subst hid
    obtain ⟨tid, tn, td, ts⟩ := t
    rfl
  · show (db.rows.map (sqlUpdateRow i t.name t.desc false)).find? (fun r => r.id == i) = _
    rw [find?_map_sqlUpdateRow_self db.rows i t.name t.desc false t hfind]

/-- Witness for C10 at a concrete state holding a completed task. -/
theorem none_keeps_false_applied_witness :
    get_task_by_id ⟨[⟨1, "a", "b", true⟩], 1⟩ 1 = some ⟨1, "a", "b", true⟩ ∧
    get_task_by_id
        (update_task ⟨[⟨1, "a", "b", true⟩], 1⟩ 1 none none (some false)).2 1 =
      some ⟨1, "a", "b", false⟩ :=
  ⟨by decide,
   (none_keeps_false_applied ⟨[⟨1, "a", "b", true⟩], 1⟩ 1 ⟨1, "a", "b", true⟩
     (by decide)).2.2⟩

/-! Histories of state-changing operations, for the id-assignment claims. -/

/-- A state-changing request: create, merge-update, delete, or `init_db`. -/
inductive Op where
  | createOp (name desc : String) (status : Bool)
  | updateOp (id : Nat) (name desc : Option String) (status : Option Bool)
  | deleteOp (id : Nat)
  | initOp
deriving DecidableEq, Repr

/-- Run one operation against the database. -/
def applyOp (db : DB) : Op → DB
  | .createOp n d s => (create_task db n d s).2
  | .updateOp i n d s => (update_task db i n d s).2
  | .deleteOp i => (delete_task db i).2
  | .initOp => init_db db

/-- The ids one operation makes the storage layer assign: one for a create,
the three seed ids when `init_db` runs against an empty table, none else. -/
def opAssigned (db : DB) : Op → List Nat
  | .createOp _ _ _ => [db.seq + 1]
  | .initOp =>
      if db.rows.length = 0 then [db.seq + 1, db.seq + 2, db.seq + 3] else []
  | _ => []

/-- The ids the storage layer hands out over a run, in assignment order. -/
def assignedIds (db : DB) : List Op → List Nat
  | [] => []
  | op :: rest => opAssigned db op ++ assignedIds (applyOp db op) rest

theorem update_task_seq (db : DB) (i : Nat) (n d : Option String) (s : Option Bool) :
    (update_task db i n d s).2.seq = db.seq := by
  unfold update_task
  cases get_task_by_id db i <;> rfl

theorem init_db_seq (db : DB) :
    (init_db db).seq = if db.rows.length = 0 then db.seq + 3 else db.seq := by
  unfold init_db
  split <;> rfl

theorem seq_le_applyOp (db : DB) (op : Op) : db.seq ≤ (applyOp db op).seq := by
  cases op with
  | createOp n d s =>
    show db.seq ≤ (create_task db n d s).2.seq
    simp [create_task]
  | updateOp i n d s =>
    show db.seq ≤ (update_task db i n d s).2.seq
    rw [update_task_seq]
  | deleteOp i =>
    show db.seq ≤ (delete_task db i).2.seq
    simp [delete_task]
  | initOp =>
    show db.seq ≤ (init_db db).seq
    rw [init_db_seq]
    split <;> omega

theorem assignedIds_gt_seq (ops : List Op) (db : DB) :
    ∀ x ∈ assignedIds db ops, db.seq < x := by
  induction ops generalizing db with
  | nil => simp [assignedIds]
  | cons op rest ih =>
    intro x hx
    simp only [assignedIds, List.mem_append] at hx
    rcases hx with hx | hx
    · cases op with
      | createOp n d s =>
        simp [opAssigned] at hx
        omega
      | updateOp i n d s => simp [opAssigned] at hx
      | deleteOp i => simp [opAssigned] at hx
      | initOp =>
        simp only [opAssigned] at hx
        split at hx
        · simp at hx
          omega
        · simp at hx
    · have h1 := ih (applyOp db op) x hx
      have h2 := seq_le_applyOp db op
      omega

theorem assignedIds_pairwise_lt (ops : List Op) (db : DB) :
    (assignedIds db ops).Pairwise (· < ·) := by
  induction ops generalizing db with
  | nil => simp [assignedIds]
  | cons op rest ih =>
    simp only [assignedIds]
    rw [List.pairwise_append]
    refine ⟨?_, ih (applyOp db op), ?_⟩
    · cases op with
      | createOp n d s => simp [opAssigned]
      | updateOp i n d s => simp [opAssigned]
      | deleteOp i => simp [opAssigned]
      | initOp =>
        simp only [opAssigned]
        split
        · refine List.Pairwise.cons ?_ (List.Pairwise.cons ?_
            (List.Pairwise.cons ?_ List.Pairwise.nil))
          · intro b hb
            simp at hb
            omega
          · intro b hb
            simp at hb
            omega
          · intro b hb
            simp at hb
        · exact List.Pairwise.nil
    · intro a ha b hb
      have hb' := assignedIds_gt_seq rest (applyOp db op) b hb
      cases op with
      | createOp n d s =>
        simp [opAssigned] at ha
        have hseq : (applyOp db (Op.createOp n d s)).seq = db.seq + 1 := rfl
        omega
      | updateOp i n d s => simp [opAssigned] at ha
      | deleteOp i => simp [opAssigned] at ha
      | initOp =>
        have hs : (applyOp db Op.initOp).seq =
            if db.rows.length = 0 then db.seq + 3 else db.seq := init_db_seq db
        rw [hs] at hb'
        simp only [opAssigned] at ha
        split at ha
        · next hlen =>
            rw [if_pos hlen] at hb'
            simp at ha
            omega
        · simp at ha

/-- C7: over any sequence of operations, the ids handed out by the storage
layer are strictly increasing (each create receives an id strictly greater
than every previously assigned one), hence pairwise distinct, and every
assigned id is strictly above every id already stored — so an id is never
reused, in particular not after its holder is deleted. -/
theorem ids_never_reused (db : DB) (ops : List Op) (hInv : Inv db) :
    (assignedIds db ops).Pairwise (· < ·) ∧
    (assignedIds db ops).Nodup ∧
    ∀ x ∈ assignedIds db ops, ∀ t ∈ db.rows, t.id < x := by
  refine ⟨assignedIds_pairwise_lt ops db,
    (assignedIds_pairwise_lt ops db).imp (fun h => Nat.ne_of_lt h), ?_⟩
  intro x hx t ht
  have h1 := assignedIds_gt_seq ops db x hx
  have h2 := hInv.2 t ht
  omega

/-- Witness for C7 on a concrete history: seed three tasks, delete one,
create one more. -/
theorem ids_never_reused_witness :
    Inv DB.empty ∧
    (assignedIds DB.empty
      [Op.initOp, Op.deleteOp 2, Op.createOp "a" "b" false]).Pairwise (· < ·) :=
  ⟨by decide,
   (ids_never_reused DB.empty
     [Op.initOp, Op.deleteOp 2, Op.createOp "a" "b" false] (by decide)).1⟩

/-! Bulk runs of creates and deletes, for the listing claim. -/

/-- Run `create_task` for each (name, desc, status) triple in order. -/
def run_creates (db : DB) : List (String × String × Bool) → DB
  | [] => db
  | p :: ps => run_creates (create_task db p.1 p.2.1 p.2.2).2 ps

/-- Run `delete_task` for each id in order. -/
def run_deletes (db : DB) : List Nat → DB
  | [] => db
  | i :: rest => run_deletes (delete_task db i).2 rest

theorem run_creates_length (cs : List (String × String × Bool)) (db : DB) :
    (run_creates db cs).rows.length = db.rows.length + cs.length := by
  induction cs generalizing db with
  | nil => simp [run_creates]
  | cons p ps ih =>
    simp only [run_creates]
    rw [ih]
    simp [create_task]
    omega

theorem Inv_run_creates (cs : List (String × String × Bool)) (db : DB)
    (h : Inv db) : Inv (run_creates db cs) := by
  induction cs generalizing db with
  | nil => exact h
  | cons p ps ih => exact ih _ (Inv_create _ _ _ _ h)

theorem run_deletes_rows (ds : List Nat) (db : DB) :
    (run_deletes db ds).rows = db.rows.filter (fun t => !(decide (t.id ∈ ds))) := by
  induction ds generalizing db with
  | nil => simp [run_deletes]
  | cons d rest ih =>
    simp only [run_deletes]
    rw [ih]
    simp only [delete_task]
    rw [List.filter_filter]
    apply List.filter_congr
    intro t ht
    by_cases h1 : t.id ∈ rest <;> by_cases h2 : t.id = d <;> simp [h1, h2]

theorem length_filter_not_add (rows : List Task) (p : Task → Bool) :
    (rows.filter (fun t => !(p t))).length + (rows.filter p).length =
      rows.length := by
  induction rows with
  | nil => rfl
  | cons a l ih =>
    cases h : p a <;> simp [h] <;> omega

theorem length_filter_mem_of_nodup (ids ds : List Nat) (hids : ids.Nodup)
    (hds : ds.Nodup) (hsub : ∀ d ∈ ds, d ∈ ids) :
    (ids.filter (fun x => decide (x ∈ ds))).length = ds.length := by
  have hperm : (ids.filter (fun x => decide (x ∈ ds))).Perm ds := by
    apply List.perm_of_nodup_nodup_toFinset_eq (hids.filter _) hds
    ext a
    simp only [List.mem_toFinset, List.mem_filter, decide_eq_true_eq]
    constructor
    · intro h
      exact h.2
    · intro h
      exact ⟨hsub a h, h⟩
  exact hperm.length_eq

/-- C8: starting from the empty database, after creating the tasks of `cs`
(N of them) and then deleting a list `ds` of M distinct ids, all of which
exist among the created rows, `get_all_tasks` returns exactly N − M tasks,
and every returned Task is literally one of the rows as created (its
last-written state) whose id was not deleted. -/
theorem list_after_creates_and_deletes (cs : List (String × String × Bool))
    (ds : List Nat) (hnd : ds.Nodup)
    (hmem : ∀ d ∈ ds, d ∈ (run_creates DB.empty cs).rows.map Task.id) :
    (get_all_tasks (run_deletes (run_creates DB.empty cs) ds)).length =
      cs.length - ds.length ∧
    ∀ t ∈ get_all_tasks (run_deletes (run_creates DB.empty cs) ds),
      t ∈ (run_creates DB.empty cs).rows ∧ t.id ∉ ds := by
  have hInv : Inv (run_creates DB.empty cs) := Inv_run_creates cs DB.empty Inv_empty
  have hrows : get_all_tasks (run_deletes (run_creates DB.empty cs) ds) =
      (run_creates DB.empty cs).rows.filter (fun t => !(decide (t.id ∈ ds))) :=
    run_deletes_rows ds (run_creates DB.empty cs)
  constructor
  · rw [hrows]
    have hN : (run_creates DB.empty cs).rows.length = cs.length := by
      rw [run_creates_length]
      simp [DB.empty]
    have hsum := length_filter_not_add (run_creates DB.empty cs).rows
      (fun t => decide (t.id ∈ ds))
    have hM : ((run_creates DB.empty cs).rows.filter
        (fun t => decide (t.id ∈ ds))).length = ds.length := by
      have hfm : ((run_creates DB.empty cs).rows.map Task.id).filter
            (fun x => decide (x ∈ ds)) =
          ((run_creates DB.empty cs).rows.filter
            (fun t => decide (t.id ∈ ds))).map Task.id := by
        rw [List.filter_map]
        rfl
      have := length_filter_mem_of_nodup ((run_creates DB.empty cs).rows.map Task.id)
        ds hInv.1 hnd hmem
      rw [hfm, List.length_map] at this
      exact this
    omega
  · intro t ht
    rw [hrows] at ht
    have := List.mem_filter.mp ht
    refine ⟨this.1, ?_⟩
    simpa using this.2

/-- Witness for C8: three creates, one delete, two tasks remain. -/
theorem list_after_creates_and_deletes_witness :
    ([2] : List Nat).Nodup ∧
    (∀ d ∈ ([2] : List Nat),
      d ∈ (run_creates DB.empty
        [("a", "x", false), ("b", "y", true), ("c", "z", false)]).rows.map Task.id) ∧
    (get_all_tasks (run_deletes
      (run_creates DB.empty
        [("a", "x", false), ("b", "y", true), ("c", "z", false)]) [2])).length =
      3 - 1 :=
  ⟨by decide, by decide,
   (list_after_creates_and_deletes
     [("a", "x", false), ("b", "y", true), ("c", "z", false)] [2]
     (by decide) (by decide)).1⟩

/-- C9, counterexample: neither the API layer (`TaskCreate` requires `name`
to be a string, with no minimum length) nor `create_task` checks for
emptiness, so one create call from the empty database persists a Task whose
name is the empty string. -/
theorem empty_name_stored :
    ∃ t ∈ (create_new_task DB.empty "" "d" false).2.rows, t.name = "" := by
  refine ⟨⟨1, "", "d", false⟩, ?_, rfl⟩
  simp [create_new_task, create_task, DB.empty]

/-- C9 as amended: persisted names are exactly the strings supplied by the
client, with no non-emptiness validation anywhere — the created Task echoes
the given name verbatim (empty or not) and is stored as such. -/
theorem name_stored_verbatim (db : DB) (n d : String) (s : Bool) :
    (create_new_task db n d s).1 = .ok ⟨db.seq + 1, n, d, s⟩ ∧
    (⟨db.seq + 1, n, d, s⟩ : Task) ∈ (create_new_task db n d s).2.rows := by
  constructor
  · rfl
  · simp [create_new_task, create_task]

end CheckIt
